import Mathlib

/-!
Verification of the `libraries-gateway` search controller
(`lib/controllers/api/search/index.js`) and blog controller
(`lib/controllers/client/nodes/BlogsController`, the unnamed source file).

JavaScript query objects are modelled as association lists from keys to
JS values (strings or integer numbers); JS exceptions are modelled with
`Except`; the two vendor search backends (Aquabrowser / Summon), which are
external client modules, are modelled as function parameters.
-/

/-- A JavaScript value as it occurs in a query-options object:
either a string or an (integer) number. -/
inductive JSVal where
  | vstr (s : String)
  | vnum (n : Int)
  deriving DecidableEq, Repr

/-- JS truthiness of a value: the empty string and the number 0 are falsy. -/
def JSVal.truthy : JSVal → Bool
  | .vstr s => !(s == "")
  | .vnum n => !(n == 0)

/-- JS truthiness of a possibly-absent property (`undefined` is falsy). -/
def jsTruthyOpt : Option JSVal → Bool
  | none => false
  | some v => v.truthy

/-- A JS exception (here only `TypeError`, e.g. calling a string method on
a number or on `undefined`). -/
inductive Exn where
  | typeError
  deriving DecidableEq, Repr

/-- A query-options object: an association list of properties. -/
abbrev Query := List (String × JSVal)

/-- Property lookup (`obj[k]`): first binding wins; absent gives `none`. -/
def getKey : Query → String → Option JSVal
  | [], _ => none
  | (k', v) :: rest, k => if k' = k then some v else getKey rest k

/-- Whether the object has the property `k`. -/
def hasKey : Query → String → Bool
  | [], _ => false
  | (k', _) :: rest, k => k' == k || hasKey rest k

/-- Overwrite every binding of `k` in place with the value `v`. -/
def updateKey : Query → String → JSVal → Query
  | [], _, _ => []
  | (k', w) :: rest, k, v =>
      if k' = k then (k, v) :: updateKey rest k v
      else (k', w) :: updateKey rest k v

/-- Property assignment (`obj[k] = v`): overwrite the binding when present,
append it otherwise. -/
def setKey (q : Query) (k : String) (v : JSVal) : Query :=
  if hasKey q k then updateKey q k v else q ++ [(k, v)]

theorem getKey_none_of_hasKey_false {q : Query} {k : String}
    (h : hasKey q k = false) : getKey q k = none := by
  induction q with
  | nil => rfl
  | cons p rest ih =>
    obtain ⟨k', v⟩ := p
    simp only [hasKey, Bool.or_eq_false_iff, beq_eq_false_iff_ne] at h
    simp only [getKey, if_neg h.1, ih h.2]

theorem getKey_isSome_of_hasKey {q : Query} {k : String}
    (h : hasKey q k = true) : (getKey q k).isSome = true := by
  induction q with
  | nil => simp [hasKey] at h
  | cons p rest ih =>
    obtain ⟨k', v⟩ := p
    simp only [hasKey, Bool.or_eq_true, beq_iff_eq] at h
    by_cases hk : k' = k
    · simp [getKey, hk]
    · simp only [getKey, if_neg hk]
      exact ih (h.resolve_left hk)

theorem getKey_updateKey_self {q : Query} {k : String} (v : JSVal)
    (h : hasKey q k = true) : getKey (updateKey q k v) k = some v := by
  induction q with
  | nil => simp [hasKey] at h
  | cons p rest ih =>
    obtain ⟨k', w⟩ := p
    by_cases hk : k' = k
    · simp [updateKey, hk, getKey]
    · simp only [hasKey, Bool.or_eq_true, beq_iff_eq] at h
      simp only [updateKey, if_neg hk, getKey, if_neg hk]
      exact ih (h.resolve_left hk)

theorem getKey_updateKey_ne (q : Query) {k k' : String} (v : JSVal)
    (h : k ≠ k') : getKey (updateKey q k' v) k = getKey q k := by
  induction q with
  | nil => rfl
  | cons p rest ih =>
    obtain ⟨k₀, w⟩ := p
    by_cases hk : k₀ = k'
    · simp only [updateKey, if_pos hk, getKey, if_neg (Ne.symm h), ih, hk]
    · simp only [updateKey, if_neg hk, getKey, ih]

theorem getKey_setKey_self (q : Query) (k : String) (v : JSVal) :
    getKey (setKey q k v) k = some v := by
  unfold setKey
  by_cases h : hasKey q k = true
  · simp only [h, if_true]
    exact getKey_updateKey_self v h
  · simp only [Bool.not_eq_true] at h
    simp only [h, Bool.false_eq_true, if_false]
    induction q with
    | nil => simp [getKey]
    | cons p rest ih =>
      obtain ⟨k', w⟩ := p
      simp only [hasKey, Bool.or_eq_false_iff, beq_eq_false_iff_ne] at h
      simp only [List.cons_append, getKey, if_neg h.1]
      exact ih h.2

theorem getKey_setKey_ne (q : Query) {k k' : String} (v : JSVal)
    (h : k ≠ k') : getKey (setKey q k' v) k = getKey q k := by
  unfold setKey
  by_cases hh : hasKey q k' = true
  · simp only [hh, if_true]
    exact getKey_updateKey_ne q v h
  · simp only [Bool.not_eq_true] at hh
    simp only [hh, Bool.false_eq_true, if_false]
    induction q with
    | nil => simp [getKey, if_neg (Ne.symm h)]
    | cons p rest ih =>
      obtain ⟨k₀, w⟩ := p
      simp only [hasKey, Bool.or_eq_false_iff, beq_eq_false_iff_ne] at hh
      simp only [List.cons_append, getKey]
      by_cases hk : k₀ = k
      · simp [hk]
      · simp only [if_neg hk]
        exact ih hh.2

theorem getKey_filter (q : Query) (f : String → Bool) (k : String) :
    getKey (q.filter (fun p => f p.1)) k
      = if f k then getKey q k else none := by
  induction q with
  | nil => simp [getKey]
  | cons p rest ih =>
    obtain ⟨k', v⟩ := p
    by_cases hk : k' = k
    · subst hk
      by_cases hf : f k'
      · simp [List.filter_cons, hf, getKey, ih]
      · simp only [List.filter_cons]
        simp only [hf, Bool.false_eq_true, if_false, ih, getKey]
    · by_cases hf : f k'
      · simp [List.filter_cons, hf, getKey, if_neg hk, ih]
      · simp only [List.filter_cons]
        simp only [hf, Bool.false_eq_true, if_false, ih, getKey, if_neg hk]

theorem getKey_mapVals (q : Query) (g : JSVal → JSVal) (k : String) :
    getKey (q.map (fun p => (p.1, g p.2))) k = (getKey q k).map g := by
  induction q with
  | nil => rfl
  | cons p rest ih =>
    obtain ⟨k', v⟩ := p
    by_cases hk : k' = k
    · simp [getKey, hk]
    · simp [getKey, if_neg hk, ih]

theorem hasKey_eq_isSome (q : Query) (k : String) :
    hasKey q k = (getKey q k).isSome := by
  induction q with
  | nil => rfl
  | cons p rest ih =>
    obtain ⟨k', v⟩ := p
    by_cases hk : k' = k
    · simp [hasKey, getKey, hk]
    · simp [hasKey, getKey, hk, ih]

theorem getKey_setKey_isSome (q : Query) (k k' : String) (v : JSVal) :
    (getKey (setKey q k' v) k).isSome
      = ((getKey q k).isSome || k == k') := by
  by_cases h : k = k'
  · subst h
    simp [getKey_setKey_self]
  · simp [getKey_setKey_ne q v h, h]

/-- The `find-a-resource` node settings used by the search controller
(`config.nodes['find-a-resource'].settings`): the query-parameter
whitelist and the page limit. -/
structure SearchConfig where
  parameters : List String
  pageLimit : Int
  deriving DecidableEq, Repr

/-- Modelled from the spec: the configuration file (`config.js`) is not part
of the sources. Per the spec, the inbound query parameters validated against
the server-side whitelist are `q`, `api`, `page`, plus vendor-specific facet
fields; `facet` and `id` are used by the controller after sanitization and
the remaining facet fields are the ones documented on `getResults`. The
page limit value is representative. -/
def specConfig : SearchConfig :=
  { parameters := ["q", "api", "page", "facet", "id", "author", "contenttype",
      "format", "language", "mdtags", "person", "region", "series", "subject",
      "subjectterms", "timeperiod", "uniformtitle"],
    pageLimit := 40 }

/-- `parseInt(v, 10)`: coerce the value to a string, skip leading
whitespace, read an optional sign and then the longest prefix of decimal
digits; `none` models `NaN`. -/
def jsParseInt (s : String) : Option Int :=
  let cs := s.data.dropWhile Char.isWhitespace
  let signAndRest : Int × List Char :=
    match cs with
    | '-' :: t => (-1, t)
    | '+' :: t => (1, t)
    | _ => (1, cs)
  let ds := signAndRest.2.takeWhile Char.isDigit
  if ds.isEmpty then none
  else some (signAndRest.1 * (ds.foldl (fun acc c => 10 * acc + (c.toNat - '0'.toNat)) 0 : Nat))

/-- `parseInt` applied to a JS value: a number is coerced to its decimal
string, which parses back to itself. -/
def parseIntJSVal : JSVal → Option Int
  | .vstr s => jsParseInt s
  | .vnum n => some n

/-- `s.toLowerCase()`: lowercase the string character by character. -/
def jsToLower (s : String) : String :=
  String.mk (s.data.map Char.toLower)

/-- The `toLowerCase` step of `_sanitizeQuery`:
`if (query.api) { query.api = query.api.toLowerCase(); }`.
Calling `toLowerCase` on a (truthy) number raises a `TypeError`. -/
def apiStep (q : Query) : Except Exn Query :=
  if jsTruthyOpt (getKey q "api") then
    match getKey q "api" with
    | some (.vstr s) => .ok (setKey q "api" (.vstr (jsToLower s)))
    | _ => .error .typeError
  else .ok q

/-- The page-clamping step of `_sanitizeQuery`:
`if (query.page) { query.page = parseInt(query.page, 10); ... }`. -/
def pageStep (cfg : SearchConfig) (q : Query) : Query :=
  if jsTruthyOpt (getKey q "page") then
    match getKey q "page" with
    | some v =>
      match parseIntJSVal v with
      | none => setKey q "page" (.vnum 1)
      | some n =>
        if n < 1 then setKey q "page" (.vnum 1)
        else if n > cfg.pageLimit then setKey q "page" (.vnum cfg.pageLimit)
        else setKey q "page" (.vnum n)
    | none => q
  else q

/-- `_sanitizeQuery`: delete every key whose index in the configured
parameter whitelist is negative, lowercase a truthy `api`, clamp a truthy
`page`. -/
def _sanitizeQuery (cfg : SearchConfig) (query : Query) : Except Exn Query :=
  (apiStep (query.filter (fun p => cfg.parameters.contains p.1))).map (pageStep cfg)

/-- One of the two vendor search backends. -/
inductive Vendor where
  | aquabrowser
  | summon
  deriving DecidableEq, Repr

/-- Modelled from the spec: the vendor API client modules
(`aquabrowser/api`, `summon/api`) are not part of the sources. Per the
spec's callback contract, an error delivered by them is an object with
`code` and `msg` fields. -/
structure ErrObj where
  code : Int
  msg : String
  deriving DecidableEq, Repr

/-- The outcome a vendor backend passes to its callback. -/
inductive BackendOutcome (R : Type) where
  | err (e : ErrObj)
  | ok (results : R)
  deriving DecidableEq, Repr

/-- The part of `getResults` up to and including backend selection:
default the API to Aquabrowser unless it is exactly the string `'summon'`,
sanitize the options, and pick the backend by comparing the sanitized
`api` with `'aquabrowser'`. -/
def getResultsCore (cfg : SearchConfig) (opts : Query) :
    Except Exn (Vendor × Query) := do
  let opts :=
    if !(jsTruthyOpt (getKey opts "api"))
        || !(getKey opts "api" == some (.vstr "summon")) then
      setKey opts "api" (.vstr "aquabrowser")
    else opts
  let opts ← _sanitizeQuery cfg opts
  let v := if getKey opts "api" == some (.vstr "aquabrowser")
           then Vendor.aquabrowser else Vendor.summon
  pure (v, opts)

/-- What a call to `getResults` does with its callback. -/
inductive SearchOutcome (R : Type) where
  | threw (e : Exn)
  | cbErr (e : ErrObj)
  | cbOk (results : R) (query : Query)
  deriving DecidableEq, Repr

/-- The numeric value of a hexadecimal digit (code points 0-9, A-F, a-f). -/
def hexDigit (c : Char) : Option Nat :=
  let n := c.toNat
  if 48 ≤ n ∧ n ≤ 57 then some (n - 48)
  else if 65 ≤ n ∧ n ≤ 70 then some (n - 55)
  else if 97 ≤ n ∧ n ≤ 102 then some (n - 87)
  else none

/-- Read a UTF-8 continuation byte `%XY` (two hex digits in `0x80..0xBF`)
and return its 6 payload bits. -/
def contByte (a b : Char) : Option Nat := do
  let h1 ← hexDigit a
  let h2 ← hexDigit b
  let v := 16 * h1 + h2
  if 0x80 ≤ v ∧ v < 0xC0 then some (v - 0x80) else none

/-- Percent-decoding as done by `decodeURIComponent`: each `%XX` escape
must carry two hex digits, and escaped bytes must form valid (non-overlong,
non-surrogate) UTF-8 sequences; `none` models a thrown `URIError`. -/
def decodeChars : List Char → Option (List Char)
  | [] => some []
  | '%' :: c1 :: c2 :: rest =>
    match hexDigit c1, hexDigit c2 with
    | some h1, some h2 =>
      let b := 16 * h1 + h2
      if b < 0x80 then
        (decodeChars rest).map (fun l => Char.ofNat b :: l)
      else if b < 0xC2 then none
      else if b < 0xE0 then
        match rest with
        | '%' :: d1 :: d2 :: rest2 =>
          match contByte d1 d2 with
          | some x =>
            (decodeChars rest2).map (fun l => Char.ofNat ((b - 0xC0) * 0x40 + x) :: l)
          | none => none
        | _ => none
      else if b < 0xF0 then
        match rest with
        | '%' :: d1 :: d2 :: '%' :: d3 :: d4 :: rest2 =>
          match contByte d1 d2, contByte d3 d4 with
          | some x, some y =>
            let cp := (b - 0xE0) * 0x1000 + x * 0x40 + y
            if cp < 0x800 ∨ (0xD800 ≤ cp ∧ cp ≤ 0xDFFF) then none
            else (decodeChars rest2).map (fun l => Char.ofNat cp :: l)
          | _, _ => none
        | _ => none
      else if b < 0xF5 then
        match rest with
        | '%' :: d1 :: d2 :: '%' :: d3 :: d4 :: '%' :: d5 :: d6 :: rest2 =>
          match contByte d1 d2, contByte d3 d4, contByte d5 d6 with
          | some x, some y, some z =>
            let cp := (b - 0xF0) * 0x40000 + x * 0x1000 + y * 0x40 + z
            if cp < 0x10000 ∨ cp > 0x10FFFF then none
            else (decodeChars rest2).map (fun l => Char.ofNat cp :: l)
          | _, _, _ => none
        | _ => none
      else none
    | _, _ => none
  | '%' :: _ => none
  | c :: rest => (decodeChars rest).map (fun l => c :: l)

/-- String coercion of a JS value (`String(v)`). -/
def jsValToString : JSVal → String
  | .vstr s => s
  | .vnum n => toString n

/-- `decodeURIComponent(v)` on a query value; a number is coerced to its
decimal string first; `none` models a thrown `URIError`. -/
def decodeURIComponentJS (v : JSVal) : Option String :=
  (decodeChars (jsValToString v).data).map (fun l => String.mk l)

/-- One step of the unescaping loop of `_resultsCallback`:
`try { opts[key] = decodeURIComponent(value); } catch { opts[key] = value; }`. -/
def decodeVal (v : JSVal) : JSVal :=
  match decodeURIComponentJS v with
  | some s => .vstr s
  | none => v

/-- The unescaping loop of `_resultsCallback` over the whole options object. -/
def decodeQueryVals (q : Query) : Query :=
  q.map (fun p => (p.1, decodeVal p.2))

/-- `q.replace(/&/g, '%26')`: every ampersand character becomes `%26`. -/
def ampExpand (c : Char) : List Char :=
  if c = '&' then ['%', '2', '6'] else [c]

/-- The ampersand replacement on a whole string. -/
def jsReplaceAmp (s : String) : String :=
  String.mk (s.data.flatMap ampExpand)

/-- The success path of `_resultsCallback`: unescape every option value,
replace ampersands in `opts.q` (a `TypeError` is thrown when `q` is absent
or a number), and invoke the callback with `{results, query}`. -/
def _resultsCallbackOk {R : Type} (opts : Query) (results : R) : SearchOutcome R :=
  let opts := decodeQueryVals opts
  match getKey opts "q" with
  | some (.vstr s) => .cbOk results (setKey opts "q" (.vstr (jsReplaceAmp s)))
  | _ => .threw .typeError

/-- `getResults`: select the backend, call it, and run `_resultsCallback`
on its outcome (an error is passed to the callback unchanged). -/
def getResults {R : Type} (cfg : SearchConfig)
    (backends : Vendor → Query → BackendOutcome R) (opts : Query) :
    SearchOutcome R :=
  match getResultsCore cfg opts with
  | .error e => .threw e
  | .ok (v, opts') =>
    match backends v opts' with
    | .err e => .cbErr e
    | .ok results => _resultsCallbackOk opts' results

/-- The decision `getResultById` takes before any backend work. -/
inductive ByIdStep where
  | earlyErr (e : ErrObj)
  | invoke (v : Vendor) (opts : Query)
  deriving DecidableEq, Repr

/-- `getResultById` up to backend selection: sanitize, reject an `api`
that is neither `'aquabrowser'` nor `'summon'` with a 400 error, and pick
the backend otherwise. -/
def getResultByIdCore (cfg : SearchConfig) (opts : Query) :
    Except Exn ByIdStep := do
  let opts ← _sanitizeQuery cfg opts
  let isAquabrowser := getKey opts "api" == some (.vstr "aquabrowser")
  let isSummon := getKey opts "api" == some (.vstr "summon")
  if !isAquabrowser && !isSummon then
    pure (.earlyErr ⟨400, "Invalid API"⟩)
  else
    pure (.invoke (if isAquabrowser then .aquabrowser else .summon) opts)

/-- What a call to `getResultById` does with its callback
(its success path passes the backend results through unchanged). -/
inductive ByIdOutcome (R : Type) where
  | threw (e : Exn)
  | cbErr (e : ErrObj)
  | cbOk (results : R)
  deriving DecidableEq, Repr

/-- `getResultById`: run the early decision, then delegate to the selected
backend, passing its error or results through unchanged. -/
def getResultById {R : Type} (cfg : SearchConfig)
    (backends : Vendor → Query → BackendOutcome R) (opts : Query) :
    ByIdOutcome R :=
  match getResultByIdCore cfg opts with
  | .error e => .threw e
  | .ok (.earlyErr e) => .cbErr e
  | .ok (.invoke v opts') =>
    match backends v opts' with
    | .err e => .cbErr e
    | .ok results => .cbOk results

/-- The decision `getFacetsForResults` takes before any backend work:
`noCall` models the fall-through when the sanitized `api` is truthy but
names neither engine, in which case the callback is never invoked. -/
inductive FacetsStep where
  | earlyErr (e : ErrObj)
  | invoke (v : Vendor) (opts : Query)
  | noCall
  deriving DecidableEq, Repr

/-- `getFacetsForResults` up to backend selection: sanitize, then reject a
falsy `api`, `facet` or `q` (in that order) with a 400 error, then address
the engine named by `api` (or none at all). -/
def getFacetsForResultsCore (cfg : SearchConfig) (opts : Query) :
    Except Exn FacetsStep := do
  let opts ← _sanitizeQuery cfg opts
  if !(jsTruthyOpt (getKey opts "api")) then
    pure (.earlyErr ⟨400, "Invalid API"⟩)
  else if !(jsTruthyOpt (getKey opts "facet")) then
    pure (.earlyErr ⟨400, "Invalid facet"⟩)
  else if !(jsTruthyOpt (getKey opts "q")) then
    pure (.earlyErr ⟨400, "Invalid query"⟩)
  else
    let isAquabrowser := getKey opts "api" == some (.vstr "aquabrowser")
    let isSummon := getKey opts "api" == some (.vstr "summon")
    if isAquabrowser then pure (.invoke .aquabrowser opts)
    else if isSummon then pure (.invoke .summon opts)
    else pure .noCall

/-- What a call to `getFacetsForResults` does with its callback;
`noCallback` records that the function returned without invoking it. -/
inductive FacetsOutcome (R : Type) where
  | threw (e : Exn)
  | cbErr (e : ErrObj)
  | cbOk (results : R)
  | noCallback
  deriving DecidableEq, Repr

/-- `getFacetsForResults`: run the early decision, then delegate to the
selected backend; `_parseFacets` converts a backend error into the fixed
`{code: 500, msg: 'Error while fetching facets'}` object. -/
def getFacetsForResults {R : Type} (cfg : SearchConfig)
    (backends : Vendor → Query → BackendOutcome R) (opts : Query) :
    FacetsOutcome R :=
  match getFacetsForResultsCore cfg opts with
  | .error e => .threw e
  | .ok (.earlyErr e) => .cbErr e
  | .ok .noCall => .noCallback
  | .ok (.invoke v opts') =>
    match backends v opts' with
    | .err _ => .cbErr ⟨500, "Error while fetching facets"⟩
    | .ok results => .cbOk results

/-- The `blogs` node settings used by the blog controller
(`config.nodes.blogs.settings`): items per page and the cache
expiration window in milliseconds. -/
structure BlogConfig where
  itemsPerPage : Nat
  expiration : Int
  deriving DecidableEq, Repr

/-- The mutable state of a `BlogsController`: the cached entry array
(`_entries`, initially `null`) and the timestamp of the last successful
fetch (`_lastUpdated`, initially `null`). -/
structure BlogState (E : Type) where
  entries : Option (List E)
  lastUpdated : Option Int
  deriving DecidableEq, Repr

/-- `_entriesExpired()`: `!_lastUpdated || (now - _lastUpdated) > lifeTime`.
A `null` (and, by JS falsiness, a zero) timestamp counts as expired. -/
def _entriesExpired {E : Type} (cfg : BlogConfig) (now : Int)
    (st : BlogState E) : Bool :=
  match st.lastUpdated with
  | none => true
  | some t => t == 0 || now - t > cfg.expiration

/-- `Math.round(x)`: round half toward positive infinity. -/
def jsRound (x : ℚ) : Int := Int.floor (x + 1/2)

/-- The options object handed to `PaginationController.getPagination`. -/
structure PaginationOpts where
  currentPage : Int
  itemsPerPage : Nat
  totalItems : Nat
  deriving DecidableEq, Repr

/-- `arr.slice(a, b)` for the non-negative indices the controller uses. -/
def jsSlice {E : Type} (es : List E) (a b : Int) : List E :=
  (es.take b.toNat).drop a.toNat

/-- The pagination block of `getContent` (lines 75–104): with no `page`
query parameter the first `itemsPerPage` entries are shown; with one, the
request is rejected (`none`, rendering the 404 page) unless the rounded
page number lies in `1..Math.round(entries.length / itemsPerPage)`.
The inner `Option ℚ` is the `Math.round` argument after JS string-to-number
coercion, `none` standing for `NaN` (`_.isNumber` is true for `NaN`, which
then fails both comparisons). On success it returns the current page and
the `start`/`end` slice bounds. -/
def pageSelection (cfg : BlogConfig) (len : Nat)
    (reqPage : Option (Option ℚ)) : Option (Int × Int × Int) :=
  match reqPage with
  | none => some (1, 0, (cfg.itemsPerPage : Int))
  | some none => none
  | some (some qv) =>
    let numPages := jsRound ((len : ℚ) / (cfg.itemsPerPage : ℚ))
    let page := jsRound qv
    if page ≤ numPages ∧ 0 < page then
      let start : Int := page * cfg.itemsPerPage - cfg.itemsPerPage
      some (page, start, start + cfg.itemsPerPage)
    else none

/-- What a `getContent` request renders: the 500 or 404 error page, the
blog page with its entries and pagination partial, a thrown `TypeError`
(reading `.length` of a `null` entry cache), or an unbounded refetch loop. -/
inductive BlogOutcome (E T : Type) where
  | render500
  | render404
  | renderBlogs (entries : List E) (tplPagination : T)
  | threw
  | diverge
  deriving DecidableEq, Repr

/-- The non-expired branch of `getContent` (lines 69–136): paginate the
cached entries and render the blog page, the 404 page on an invalid `page`
parameter, or the 500 page when pagination rendering fails. When the cache
is empty (`_entries.length` falsy) the whole cached array is used as is. -/
def serveFromCache {E T : Type} (cfg : BlogConfig)
    (pagin : PaginationOpts → Except Unit T) (st : BlogState E)
    (reqPage : Option (Option ℚ)) : BlogOutcome E T :=
  match st.entries with
  | none => .threw
  | some es =>
    match pageSelection cfg es.length reqPage with
    | none => .render404
    | some (page, start, stop) =>
      let blogPosts := if es.length ≠ 0 then jsSlice es start stop else es
      match pagin ⟨page, cfg.itemsPerPage, es.length⟩ with
      | .error _ => .render500
      | .ok tpl => .renderBlogs blogPosts tpl

/-- `BlogsController.getContent`: refetch the feed when the cached entries
are expired — rendering the 500 page when the fetch fails, and otherwise
storing the entries with the current timestamp and re-entering `getContent`
— and serve from the cache when they are not. `diverge` records the
(unreachable for a non-negative expiration window and a positive clock)
case where the entries are still expired right after a successful fetch. -/
def getContent {E T : Type} (cfg : BlogConfig)
    (fetch : Except Unit (List E)) (pagin : PaginationOpts → Except Unit T)
    (now : Int) (st : BlogState E) (reqPage : Option (Option ℚ)) :
    BlogOutcome E T × BlogState E :=
  if _entriesExpired cfg now st then
    match fetch with
    | .error _ => (.render500, st)
    | .ok es =>
      let st' : BlogState E := ⟨some es, some now⟩
      if _entriesExpired cfg now st' then (.diverge, st')
      else (serveFromCache cfg pagin st' reqPage, st')
  else (serveFromCache cfg pagin st reqPage, st)

theorem apiStep_getKey_ne {q q2 : Query} (h : apiStep q = .ok q2)
    {k : String} (hk : k ≠ "api") : getKey q2 k = getKey q k := by
  unfold apiStep at h
  by_cases ht : jsTruthyOpt (getKey q "api") = true
  · rw [if_pos ht] at h
    match hg : getKey q "api" with
    | some (.vstr s) =>
      rw [hg] at h
      cases h
      exact getKey_setKey_ne q _ hk
    | some (.vnum n) => rw [hg] at h; cases h
    | none => rw [hg] at h; cases h
  · simp only [Bool.not_eq_true] at ht
    rw [ht] at h
    simp only [Bool.false_eq_true, if_false] at h
    cases h
    rfl

theorem apiStep_isSome_api {q q2 : Query} (h : apiStep q = .ok q2) :
    (getKey q2 "api").isSome = (getKey q "api").isSome := by
  unfold apiStep at h
  by_cases ht : jsTruthyOpt (getKey q "api") = true
  · rw [if_pos ht] at h
    match hg : getKey q "api" with
    | some (.vstr s) =>
      rw [hg] at h
      cases h
      simp [getKey_setKey_self]
    | some (.vnum n) => rw [hg] at h; cases h
    | none => rw [hg] at h; cases h
  · simp only [Bool.not_eq_true] at ht
    rw [ht] at h
    simp only [Bool.false_eq_true, if_false] at h
    cases h
    rfl

theorem apiStep_of_falsy {q : Query}
    (h : jsTruthyOpt (getKey q "api") = false) : apiStep q = .ok q := by
  unfold apiStep
  rw [h]
  simp

theorem apiStep_of_vstr {q : Query} {s : String}
    (hg : getKey q "api" = some (.vstr s)) (hs : s ≠ "") :
    apiStep q = .ok (setKey q "api" (.vstr (jsToLower s))) := by
  unfold apiStep
  rw [hg]
  simp [jsTruthyOpt, JSVal.truthy, hs]

/-- The clamping map the claim describes for a `page` value: an unparsable
value becomes 1, a parsed value below 1 becomes 1, a parsed value above the
configured page limit becomes that limit, any other parsed value is kept. -/
def clampPage (cfg : SearchConfig) : Option Int → Int
  | none => 1
  | some n => if n < 1 then 1 else if n > cfg.pageLimit then cfg.pageLimit else n

theorem pageStep_of_truthy {cfg : SearchConfig} {q : Query} {v : JSVal}
    (hg : getKey q "page" = some v) (ht : v.truthy = true) :
    pageStep cfg q = setKey q "page" (.vnum (clampPage cfg (parseIntJSVal v))) := by
  unfold pageStep
  rw [hg]
  simp only [jsTruthyOpt, ht, if_true]
  rcases hp : parseIntJSVal v with _ | n
  · simp [clampPage]
  · by_cases h1 : n < 1
    · simp [clampPage, h1]
    · by_cases h2 : n > cfg.pageLimit
      · simp [clampPage, h1, h2]
      · simp [clampPage, h1, h2]

theorem pageStep_of_falsy {cfg : SearchConfig} {q : Query}
    (h : jsTruthyOpt (getKey q "page") = false) : pageStep cfg q = q := by
  unfold pageStep
  rw [h]
  simp

theorem pageStep_getKey_ne (cfg : SearchConfig) (q : Query)
    {k : String} (hk : k ≠ "page") :
    getKey (pageStep cfg q) k = getKey q k := by
  by_cases ht : jsTruthyOpt (getKey q "page") = true
  · rcases hg : getKey q "page" with _ | v
    · rw [hg] at ht
      simp [jsTruthyOpt] at ht
    · rw [hg] at ht
      rw [pageStep_of_truthy hg (by simpa [jsTruthyOpt] using ht)]
      exact getKey_setKey_ne q _ hk
  · simp only [Bool.not_eq_true] at ht
    rw [pageStep_of_falsy ht]

theorem pageStep_isSome_page (cfg : SearchConfig) (q : Query) :
    (getKey (pageStep cfg q) "page").isSome = (getKey q "page").isSome := by
  by_cases ht : jsTruthyOpt (getKey q "page") = true
  · rcases hg : getKey q "page" with _ | v
    · rw [hg] at ht
      simp [jsTruthyOpt] at ht
    · rw [hg] at ht
      rw [pageStep_of_truthy hg (by simpa [jsTruthyOpt] using ht)]
      simp [getKey_setKey_self, hg]
  · simp only [Bool.not_eq_true] at ht
    rw [pageStep_of_falsy ht]

theorem sanitize_eq {cfg : SearchConfig} {q q2 : Query}
    (h : apiStep (q.filter (fun p => cfg.parameters.contains p.1)) = .ok q2) :
    _sanitizeQuery cfg q = .ok (pageStep cfg q2) := by
  unfold _sanitizeQuery
  rw [h]
  rfl

theorem sanitize_ok_cases {cfg : SearchConfig} {q q' : Query}
    (h : _sanitizeQuery cfg q = .ok q') :
    ∃ q2, apiStep (q.filter (fun p => cfg.parameters.contains p.1)) = .ok q2
      ∧ q' = pageStep cfg q2 := by
  unfold _sanitizeQuery at h
  match hh : apiStep (q.filter (fun p => cfg.parameters.contains p.1)) with
  | .ok q2 =>
    rw [hh] at h
    simp only [Except.map] at h
    cases h
    exact ⟨q2, rfl, rfl⟩
  | .error e =>
    rw [hh] at h
    simp [Except.map] at h

theorem eq_none_of_isSome_false {α : Type} {o : Option α}
    (h : o.isSome = false) : o = none := by
  cases o
  · rfl
  · simp at h

/-- C1: for every options object, `getResults` dispatches to exactly one of
the two vendor backends selected by the `api` string flag: to the Summon
backend when `opts.api` is the string `'summon'` at entry, and to the
Aquabrowser backend in every other case (including an absent `opts.api`),
with `opts.api` rewritten to `'aquabrowser'` in that default case. The
hypothesis records that `api` is on the configured whitelist (which the
spec states it is). -/
theorem getResults_dispatch (cfg : SearchConfig) (opts : Query)
    (hwl : cfg.parameters.contains "api" = true) :
    ∃ v opts', getResultsCore cfg opts = .ok (v, opts') ∧
      (getKey opts "api" = some (.vstr "summon") → v = .summon) ∧
      (getKey opts "api" ≠ some (.vstr "summon") →
        v = .aquabrowser ∧ getKey opts' "api" = some (.vstr "aquabrowser")) ∧
      (∀ (R : Type) (b b' : Vendor → Query → BackendOutcome R),
        b v opts' = b' v opts' →
          getResults cfg b opts = getResults cfg b' opts) := by
  by_cases hsum : getKey opts "api" = some (JSVal.vstr "summon")
  · have hcond : (!(jsTruthyOpt (getKey opts "api"))
        || !(getKey opts "api" == some (JSVal.vstr "summon"))) = false := by
      rw [hsum]
      decide
    have hga : getKey (opts.filter (fun p => cfg.parameters.contains p.1)) "api"
        = some (JSVal.vstr "summon") := by
      rw [getKey_filter, hwl, if_pos rfl, hsum]
    have hlow : jsToLower "summon" = "summon" := by decide
    have hapi : apiStep (opts.filter (fun p => cfg.parameters.contains p.1))
        = .ok (setKey (opts.filter (fun p => cfg.parameters.contains p.1))
            "api" (.vstr "summon")) := by
      rw [apiStep_of_vstr hga (by decide), hlow]
    have hsan := sanitize_eq hapi
    have hgetapi : getKey (pageStep cfg
        (setKey (opts.filter (fun p => cfg.parameters.contains p.1))
          "api" (.vstr "summon"))) "api" = some (JSVal.vstr "summon") := by
      rw [pageStep_getKey_ne cfg _ (by decide), getKey_setKey_self]
    have hcore : getResultsCore cfg opts
        = .ok (Vendor.summon, pageStep cfg
            (setKey (opts.filter (fun p => cfg.parameters.contains p.1))
              "api" (.vstr "summon"))) := by
      unfold getResultsCore
      rw [hcond]
      simp only [Bool.false_eq_true, if_false, hsan, Except.bind, bind, hgetapi]
      rfl
    refine ⟨.summon, _, hcore, fun _ => rfl, fun hne => (hne hsum).elim,
      fun R b b' hb => ?_⟩
    unfold getResults
    rw [hcore]
    simp only [hb]
  · have hbeq : (getKey opts "api" == some (JSVal.vstr "summon")) = false :=
      beq_eq_false_iff_ne.mpr hsum
    have hcond : (!(jsTruthyOpt (getKey opts "api"))
        || !(getKey opts "api" == some (JSVal.vstr "summon"))) = true := by
      rw [hbeq]
      simp
    have hga : getKey ((setKey opts "api" (.vstr "aquabrowser")).filter
          (fun p => cfg.parameters.contains p.1)) "api"
        = some (JSVal.vstr "aquabrowser") := by
      rw [getKey_filter, hwl, if_pos rfl, getKey_setKey_self]
    have hlow : jsToLower "aquabrowser" = "aquabrowser" := by decide
    have hapi : apiStep ((setKey opts "api" (.vstr "aquabrowser")).filter
          (fun p => cfg.parameters.contains p.1))
        = .ok (setKey ((setKey opts "api" (.vstr "aquabrowser")).filter
            (fun p => cfg.parameters.contains p.1))
            "api" (.vstr "aquabrowser")) := by
      rw [apiStep_of_vstr hga (by decide), hlow]
    have hsan := sanitize_eq hapi
    have hgetapi : getKey (pageStep cfg
        (setKey ((setKey opts "api" (.vstr "aquabrowser")).filter
          (fun p => cfg.parameters.contains p.1))
          "api" (.vstr "aquabrowser"))) "api"
        = some (JSVal.vstr "aquabrowser") := by
      rw [pageStep_getKey_ne cfg _ (by decide), getKey_setKey_self]
    have hcore : getResultsCore cfg opts
        = .ok (Vendor.aquabrowser, pageStep cfg
            (setKey ((setKey opts "api" (.vstr "aquabrowser")).filter
              (fun p => cfg.parameters.contains p.1))
              "api" (.vstr "aquabrowser"))) := by
      unfold getResultsCore
      rw [hcond]
      simp only [if_true, hsan, Except.bind, bind, hgetapi]
      rfl
    refine ⟨.aquabrowser, _, hcore, fun hs => (hsum hs).elim,
      fun _ => ⟨rfl, hgetapi⟩, fun R b b' hb => ?_⟩
    unfold getResults
    rw [hcore]
    simp only [hb]

/-- Witness for C1 at a concrete input: an entry `api` of `'SUMMON'` is not
the exact string `'summon'`, so the request defaults to Aquabrowser. -/
theorem getResults_dispatch_witness :
    ∃ v opts', getResultsCore specConfig [("api", JSVal.vstr "SUMMON")]
        = .ok (v, opts') ∧
      (getKey [("api", JSVal.vstr "SUMMON")] "api" = some (.vstr "summon")
        → v = .summon) ∧
      (getKey [("api", JSVal.vstr "SUMMON")] "api" ≠ some (.vstr "summon") →
        v = .aquabrowser ∧ getKey opts' "api" = some (.vstr "aquabrowser")) ∧
      (∀ (R : Type) (b b' : Vendor → Query → BackendOutcome R),
        b v opts' = b' v opts' →
          getResults specConfig b [("api", JSVal.vstr "SUMMON")]
            = getResults specConfig b' [("api", JSVal.vstr "SUMMON")]) :=
  getResults_dispatch specConfig [("api", JSVal.vstr "SUMMON")] (by decide)

/-- C2 (amended): sanitization deletes every key that is not on the
configured whitelist and keeps every whitelisted key present; the value of
a whitelisted key other than `api` and `page` is retained verbatim
(`api` may be lowercased and `page` clamped, see `sanitize_page_clamp`). -/
theorem sanitize_whitelist (cfg : SearchConfig) (q q' : Query)
    (h : _sanitizeQuery cfg q = .ok q') (k : String) :
    (cfg.parameters.contains k = false → getKey q' k = none) ∧
    (cfg.parameters.contains k = true →
      (getKey q' k).isSome = (getKey q k).isSome) ∧
    (cfg.parameters.contains k = true → k ≠ "api" → k ≠ "page" →
      getKey q' k = getKey q k) := by
  obtain ⟨q2, hapi, hq'⟩ := sanitize_ok_cases h
  subst hq'
  have hpg : (getKey (pageStep cfg q2) k).isSome = (getKey q2 k).isSome := by
    by_cases hp : k = "page"
    · subst hp
      exact pageStep_isSome_page cfg q2
    · rw [pageStep_getKey_ne cfg q2 hp]
  have hap : (getKey q2 k).isSome
      = (getKey (q.filter (fun p => cfg.parameters.contains p.1)) k).isSome := by
    by_cases ha : k = "api"
    · subst ha
      exact apiStep_isSome_api hapi
    · rw [apiStep_getKey_ne hapi ha]
  refine ⟨fun hc => ?_, fun hc => ?_, fun hc hka hkp => ?_⟩
  · apply eq_none_of_isSome_false
    rw [hpg, hap, getKey_filter, hc]
    simp
  · rw [hpg, hap, getKey_filter, hc]
    simp
  · rw [pageStep_getKey_ne cfg q2 hkp, apiStep_getKey_ne hapi hka,
      getKey_filter, hc]
    simp

/-- Witness for C2's amended statement at a concrete input: the key `junk`
is not whitelisted and is deleted, while the whitelisted `q` is retained
verbatim. -/
theorem sanitize_whitelist_witness :
    getKey [("q", JSVal.vstr "darwin")] "junk" = none ∧
    getKey [("q", JSVal.vstr "darwin")] "q"
      = getKey [("q", JSVal.vstr "darwin"), ("junk", JSVal.vstr "y")] "q" :=
  ⟨(sanitize_whitelist specConfig
      [("q", JSVal.vstr "darwin"), ("junk", JSVal.vstr "y")]
      [("q", JSVal.vstr "darwin")] (by rfl) "junk").1 (by decide),
   (sanitize_whitelist specConfig
      [("q", JSVal.vstr "darwin"), ("junk", JSVal.vstr "y")]
      [("q", JSVal.vstr "darwin")] (by rfl) "q").2.2 (by decide)
      (by decide) (by decide)⟩

/-- Counterexample to C2 as stated: `api` is on the whitelist, yet its
value `'SUMMON'` is not retained by sanitization — it comes out lowercased
as `'summon'`. -/
theorem sanitize_whitelist_counterexample :
    specConfig.parameters.contains "api" = true ∧
    _sanitizeQuery specConfig [("api", JSVal.vstr "SUMMON")]
      = .ok [("api", JSVal.vstr "summon")] ∧
    JSVal.vstr "summon" ≠ JSVal.vstr "SUMMON" :=
  ⟨by decide, by rfl, by decide⟩

/-- C3 (amended): for every query whose `page` field is present and truthy,
sanitization replaces it with the clamped `parseInt` value (non-parsing → 1,
below 1 → 1, above the configured limit → the limit, otherwise the parsed
integer); a present but falsy `page` (the empty string or the number 0) is
left unchanged. The hypothesis records that `page` is whitelisted. -/
theorem sanitize_page_clamp (cfg : SearchConfig) (q q' : Query) (v : JSVal)
    (hwl : cfg.parameters.contains "page" = true)
    (hg : getKey q "page" = some v)
    (h : _sanitizeQuery cfg q = .ok q') :
    (v.truthy = true →
      getKey q' "page" = some (.vnum (clampPage cfg (parseIntJSVal v)))) ∧
    (v.truthy = false → getKey q' "page" = some v) := by
  obtain ⟨q2, hapi, hq'⟩ := sanitize_ok_cases h
  subst hq'
  have hg2 : getKey q2 "page" = some v := by
    rw [apiStep_getKey_ne hapi (by decide), getKey_filter, hwl, if_pos rfl, hg]
  refine ⟨fun ht => ?_, fun hf => ?_⟩
  · rw [pageStep_of_truthy hg2 ht, getKey_setKey_self]
  · rw [pageStep_of_falsy (by rw [hg2]; simpa [jsTruthyOpt] using hf), hg2]

/-- Witness for C3's amended statement at a concrete input: a truthy
`page` of `'99'` is clamped down to the configured limit. -/
theorem sanitize_page_clamp_witness :
    getKey [("page", JSVal.vnum 40)] "page"
      = some (.vnum (clampPage specConfig (parseIntJSVal (.vstr "99")))) :=
  (sanitize_page_clamp specConfig [("page", JSVal.vstr "99")]
    [("page", JSVal.vnum 40)] (.vstr "99") (by decide) (by decide)
    (by rfl)).1 (by decide)

/-- Counterexample to C3 as stated: `page` is whitelisted and present with
the (falsy) value `''`, which does not parse as an integer, yet
sanitization leaves it as `''` instead of turning it into 1. -/
theorem sanitize_page_clamp_counterexample :
    specConfig.parameters.contains "page" = true ∧
    _sanitizeQuery specConfig [("page", JSVal.vstr "")]
      = .ok [("page", JSVal.vstr "")] ∧
    jsParseInt "" = none ∧
    JSVal.vstr "" ≠ JSVal.vnum 1 :=
  ⟨by decide, by rfl, by rfl, by decide⟩

/-- C6: after sanitization, `getFacetsForResults` rejects a missing/empty
`api` with `{400, Invalid API}`, otherwise a missing/empty `facet` with
`{400, Invalid facet}`, otherwise a missing/empty `q` with
`{400, Invalid query}`; in each case the decision is an early error, so no
backend is invoked, and the callback receives exactly that error object. -/
theorem getFacets_validation {R : Type} (cfg : SearchConfig)
    (backends : Vendor → Query → BackendOutcome R) (opts q' : Query)
    (hsan : _sanitizeQuery cfg opts = .ok q') :
    (jsTruthyOpt (getKey q' "api") = false →
      getFacetsForResultsCore cfg opts = .ok (.earlyErr ⟨400, "Invalid API"⟩) ∧
      getFacetsForResults cfg backends opts = .cbErr ⟨400, "Invalid API"⟩) ∧
    (jsTruthyOpt (getKey q' "api") = true →
      jsTruthyOpt (getKey q' "facet") = false →
      getFacetsForResultsCore cfg opts = .ok (.earlyErr ⟨400, "Invalid facet"⟩) ∧
      getFacetsForResults cfg backends opts = .cbErr ⟨400, "Invalid facet"⟩) ∧
    (jsTruthyOpt (getKey q' "api") = true →
      jsTruthyOpt (getKey q' "facet") = true →
      jsTruthyOpt (getKey q' "q") = false →
      getFacetsForResultsCore cfg opts = .ok (.earlyErr ⟨400, "Invalid query"⟩) ∧
      getFacetsForResults cfg backends opts = .cbErr ⟨400, "Invalid query"⟩) := by
  refine ⟨fun h1 => ?_, fun h1 h2 => ?_, fun h1 h2 h3 => ?_⟩
  · have hcore : getFacetsForResultsCore cfg opts
        = .ok (.earlyErr ⟨400, "Invalid API"⟩) := by
      unfold getFacetsForResultsCore
      rw [hsan]
      show (if !(jsTruthyOpt (getKey q' "api")) then _ else _) = _
      rw [h1]
      rfl
    refine ⟨hcore, ?_⟩
    unfold getFacetsForResults
    rw [hcore]
  · have hcore : getFacetsForResultsCore cfg opts
        = .ok (.earlyErr ⟨400, "Invalid facet"⟩) := by
      unfold getFacetsForResultsCore
      rw [hsan]
      show (if !(jsTruthyOpt (getKey q' "api")) then _
            else if !(jsTruthyOpt (getKey q' "facet")) then _ else _) = _
      rw [h1, h2]
      rfl
    refine ⟨hcore, ?_⟩
    unfold getFacetsForResults
    rw [hcore]
  · have hcore : getFacetsForResultsCore cfg opts
        = .ok (.earlyErr ⟨400, "Invalid query"⟩) := by
      unfold getFacetsForResultsCore
      rw [hsan]
      show (if !(jsTruthyOpt (getKey q' "api")) then _
            else if !(jsTruthyOpt (getKey q' "facet")) then _
            else if !(jsTruthyOpt (getKey q' "q")) then _ else _) = _
      rw [h1, h2, h3]
      rfl
    refine ⟨hcore, ?_⟩
    unfold getFacetsForResults
    rw [hcore]

/-- Witness for C6 at a concrete input: a request with a `facet` and a `q`
but no `api` is rejected with `{400, Invalid API}` before any backend work. -/
theorem getFacets_validation_witness :
    getFacetsForResultsCore specConfig
        [("facet", JSVal.vstr "format"), ("q", JSVal.vstr "darwin")]
      = .ok (.earlyErr ⟨400, "Invalid API"⟩) ∧
    getFacetsForResults specConfig
        (fun (_ : Vendor) (_ : Query) => BackendOutcome.ok (0 : Nat))
        [("facet", JSVal.vstr "format"), ("q", JSVal.vstr "darwin")]
      = .cbErr ⟨400, "Invalid API"⟩ :=
  (getFacets_validation specConfig
      (fun (_ : Vendor) (_ : Query) => BackendOutcome.ok (0 : Nat))
      [("facet", JSVal.vstr "format"), ("q", JSVal.vstr "darwin")]
      [("facet", JSVal.vstr "format"), ("q", JSVal.vstr "darwin")]
      (by rfl)).1 (by decide)

/-- C7: when the sanitized `api` of a `getResultById` call is neither
`'aquabrowser'` nor `'summon'`, the decision is the early error
`{400, Invalid API}` — the callback is invoked exactly once with that
object and no backend is invoked. -/
theorem getResultById_invalidApi {R : Type} (cfg : SearchConfig)
    (backends : Vendor → Query → BackendOutcome R) (opts q' : Query)
    (hsan : _sanitizeQuery cfg opts = .ok q')
    (ha : getKey q' "api" ≠ some (.vstr "aquabrowser"))
    (hs : getKey q' "api" ≠ some (.vstr "summon")) :
    getResultByIdCore cfg opts = .ok (.earlyErr ⟨400, "Invalid API"⟩) ∧
    getResultById cfg backends opts = .cbErr ⟨400, "Invalid API"⟩ := by
  have hba : (getKey q' "api" == some (JSVal.vstr "aquabrowser")) = false :=
    beq_eq_false_iff_ne.mpr ha
  have hbs : (getKey q' "api" == some (JSVal.vstr "summon")) = false :=
    beq_eq_false_iff_ne.mpr hs
  have hcore : getResultByIdCore cfg opts
      = .ok (.earlyErr ⟨400, "Invalid API"⟩) := by
    unfold getResultByIdCore
    rw [hsan]
    show (if !(getKey q' "api" == some (JSVal.vstr "aquabrowser"))
            && !(getKey q' "api" == some (JSVal.vstr "summon")) then _
          else _) = _
    rw [hba, hbs]
    rfl
  refine ⟨hcore, ?_⟩
  unfold getResultById
  rw [hcore]

/-- Witness for C7 at a concrete input: a sanitized `api` of `'google'`
names neither engine and is rejected with `{400, Invalid API}`. -/
theorem getResultById_invalidApi_witness :
    getResultByIdCore specConfig [("api", JSVal.vstr "google")]
      = .ok (.earlyErr ⟨400, "Invalid API"⟩) ∧
    getResultById specConfig
        (fun (_ : Vendor) (_ : Query) => BackendOutcome.ok (0 : Nat))
        [("api", JSVal.vstr "google")]
      = .cbErr ⟨400, "Invalid API"⟩ :=
  getResultById_invalidApi specConfig
    (fun (_ : Vendor) (_ : Query) => BackendOutcome.ok (0 : Nat))
    [("api", JSVal.vstr "google")] [("api", JSVal.vstr "google")]
    (by rfl) (by decide) (by decide)

theorem _resultsCallbackOk_ne_cbErr {R : Type} (opts : Query) (r : R)
    (e : ErrObj) : _resultsCallbackOk opts r ≠ .cbErr e := by
  unfold _resultsCallbackOk
  dsimp only
  rcases hg : getKey (decodeQueryVals opts) "q" with _ | v
  · simp
  · rcases v with s | n <;> simp

/-- C4: every error the three search-controller functions pass to their
callback is an object with `code` and `msg` fields. For `getResults` the
theorem also records that an error is always the upstream backend error
passed through unchanged (which has the `{code, msg}` shape by the spec's
callback contract for the excluded vendor client modules). -/
theorem callback_errors_shape :
    (∀ (R : Type) (cfg : SearchConfig)
        (b : Vendor → Query → BackendOutcome R) (opts : Query) (e : ErrObj),
      getResults cfg b opts = .cbErr e →
        (∃ c m, e = ErrObj.mk c m) ∧
        ∃ v q2, getResultsCore cfg opts = .ok (v, q2) ∧ b v q2 = .err e) ∧
    (∀ (R : Type) (cfg : SearchConfig)
        (b : Vendor → Query → BackendOutcome R) (opts : Query) (e : ErrObj),
      getResultById cfg b opts = .cbErr e → ∃ c m, e = ErrObj.mk c m) ∧
    (∀ (R : Type) (cfg : SearchConfig)
        (b : Vendor → Query → BackendOutcome R) (opts : Query) (e : ErrObj),
      getFacetsForResults cfg b opts = .cbErr e → ∃ c m, e = ErrObj.mk c m) := by
  refine ⟨fun R cfg b opts e h => ⟨⟨e.code, e.msg, rfl⟩, ?_⟩,
    fun R cfg b opts e _ => ⟨e.code, e.msg, rfl⟩,
    fun R cfg b opts e _ => ⟨e.code, e.msg, rfl⟩⟩
  unfold getResults at h
  rcases hc : getResultsCore cfg opts with e' | p
  · rw [hc] at h
    simp at h
  · obtain ⟨v, q2⟩ := p
    rw [hc] at h
    dsimp only at h
    rcases hb : b v q2 with e2 | r
    · rw [hb] at h
      simp only [SearchOutcome.cbErr.injEq] at h
      exact ⟨v, q2, rfl, by rw [hb, h]⟩
    · rw [hb] at h
      exact (_resultsCallbackOk_ne_cbErr q2 r e h).elim

/-- Witness for C4 at a concrete input: a backend failure surfaces through
`getResults` as the backend's own `{code, msg}` object. -/
theorem callback_errors_shape_witness :
    (∃ c m, ErrObj.mk 502 "upstream down" = ErrObj.mk c m) ∧
    ∃ v q2, getResultsCore specConfig [("q", JSVal.vstr "darwin")]
        = .ok (v, q2) ∧
      (fun (_ : Vendor) (_ : Query) =>
        BackendOutcome.err (R := Nat) ⟨502, "upstream down"⟩) v q2
        = .err ⟨502, "upstream down"⟩ :=
  callback_errors_shape.1 Nat specConfig
    (fun _ _ => BackendOutcome.err ⟨502, "upstream down"⟩)
    [("q", JSVal.vstr "darwin")] ⟨502, "upstream down"⟩ (by rfl)

theorem jsReplaceAmp_no_amp (s : String) :
    ((jsReplaceAmp s).data.all (fun c => !(c == '&'))) = true := by
  show ((s.data.flatMap ampExpand).all (fun c => !(c == '&'))) = true
  induction s.data with
  | nil => rfl
  | cons c t ih =>
    rw [List.flatMap_cons, List.all_append, ih, Bool.and_true]
    unfold ampExpand
    by_cases hc : c = '&'
    · simp [hc]
    · simp [hc]

/-- C10: when `getResults` succeeds, the callback's second argument is
`{results, query}` where `query` is the sanitized options with every value
percent-decoded when decodable and kept verbatim otherwise, and whose `q`
value additionally has every `&` replaced by `%26` — so the echoed query
string contains no literal ampersand. -/
theorem getResults_success_echo {R : Type} (cfg : SearchConfig)
    (b : Vendor → Query → BackendOutcome R) (opts : Query) (r : R)
    (q' : Query) (h : getResults cfg b opts = .cbOk r q') :
    ∃ v opts', getResultsCore cfg opts = .ok (v, opts') ∧
      b v opts' = .ok r ∧
      (∀ k, k ≠ "q" → getKey q' k = (getKey opts' k).map decodeVal) ∧
      ∃ s, getKey (decodeQueryVals opts') "q" = some (.vstr s) ∧
        getKey q' "q" = some (.vstr (jsReplaceAmp s)) ∧
        ((jsReplaceAmp s).data.all (fun c => !(c == '&'))) = true := by
  unfold getResults at h
  rcases hc : getResultsCore cfg opts with e | p
  · rw [hc] at h
    simp at h
  · obtain ⟨v, opts'⟩ := p
    rw [hc] at h
    dsimp only at h
    rcases hb : b v opts' with e | r0
    · rw [hb] at h
      simp at h
    · rw [hb] at h
      unfold _resultsCallbackOk at h
      dsimp only at h
      rcases hg : getKey (decodeQueryVals opts') "q" with _ | v0
    
      · rw [hg] at h
        simp at h
      · rw [hg] at h
        rcases v0 with s | n
        · simp only [SearchOutcome.cbOk.injEq] at h
          obtain ⟨hr, hq⟩ := h
          subst hr
          refine ⟨v, opts', rfl, hb, fun k hk => ?_, s, hg, ?_, ?_⟩
          · rw [← hq, getKey_setKey_ne _ _ hk]
            unfold decodeQueryVals
            exact getKey_mapVals opts' decodeVal k
          · rw [← hq, getKey_setKey_self]
          · exact jsReplaceAmp_no_amp s
        · simp at h

/-- Witness for C10 at a concrete input: a query of `'a&b'` passes through
unchanged by decoding and is echoed as `'a%26b'`. -/
theorem getResults_success_echo_witness :
    ∃ v opts', getResultsCore specConfig [("q", JSVal.vstr "a&b")]
        = .ok (v, opts') ∧
      (fun (_ : Vendor) (_ : Query) => BackendOutcome.ok (0 : Nat)) v opts'
        = .ok 0 ∧
      (∀ k, k ≠ "q" →
        getKey [("q", JSVal.vstr "a%26b"), ("api", JSVal.vstr "aquabrowser")] k
          = (getKey opts' k).map decodeVal) ∧
      ∃ s, getKey (decodeQueryVals opts') "q" = some (.vstr s) ∧
        getKey [("q", JSVal.vstr "a%26b"), ("api", JSVal.vstr "aquabrowser")]
          "q" = some (.vstr (jsReplaceAmp s)) ∧
        ((jsReplaceAmp s).data.all (fun c => !(c == '&'))) = true :=
  getResults_success_echo specConfig
    (fun _ _ => BackendOutcome.ok (0 : Nat)) [("q", JSVal.vstr "a&b")] 0
    [("q", JSVal.vstr "a%26b"), ("api", JSVal.vstr "aquabrowser")] (by rfl)

theorem serveFromCache_eq {E T : Type} (cfg : BlogConfig)
    (pagin : PaginationOpts → Except Unit T) (st : BlogState E) (es : List E)
    (rq : Option (Option ℚ)) (hes : st.entries = some es) :
    serveFromCache cfg pagin st rq =
      match pageSelection cfg es.length rq with
      | none => .render404
      | some (page, start, stop) =>
        let blogPosts := if es.length ≠ 0 then jsSlice es start stop else es
        match pagin ⟨page, cfg.itemsPerPage, es.length⟩ with
        | .error _ => .render500
        | .ok tpl => .renderBlogs blogPosts tpl := by
  unfold serveFromCache
  rw [hes]

/-- C5: `getContent` refetches the external feed exactly when no fetch has
ever succeeded or the time elapsed since the last successful fetch strictly
exceeds the configured expiration window (`_entriesExpired` is the refetch
guard); otherwise the request is served from the cache and the cached
state is left unchanged. The hypothesis records that every recorded fetch
timestamp is positive (true of `Date.now()`; a zero timestamp would also be
treated as expired by JS falsiness). -/
theorem getContent_ttl {E T : Type} (cfg : BlogConfig)
    (fetch : Except Unit (List E)) (pagin : PaginationOpts → Except Unit T)
    (now : Int) (st : BlogState E) (rq : Option (Option ℚ))
    (hpos : ∀ t, st.lastUpdated = some t → 0 < t) :
    (_entriesExpired cfg now st = true ↔
      st.lastUpdated = none ∨
        ∃ t, st.lastUpdated = some t ∧ now - t > cfg.expiration) ∧
    (_entriesExpired cfg now st = false →
      getContent cfg fetch pagin now st rq
        = (serveFromCache cfg pagin st rq, st)) := by
  constructor
  · unfold _entriesExpired
    rcases hl : st.lastUpdated with _ | t
    · simp
    · have h0 : (t == 0) = false := by
        have := hpos t hl
        simp only [beq_eq_false_iff_ne]
        omega
      dsimp only
      rw [h0]
      simp only [Bool.false_or, decide_eq_true_eq]
      constructor
      · intro hgt
        exact Or.inr ⟨t, rfl, hgt⟩
      · rintro (h | ⟨t', ht', hgt⟩)
        · cases h
        · cases ht'
          exact hgt
  · intro hexp
    unfold getContent
    rw [hexp]
    simp

/-- Witness for C5 at a concrete input: five seconds after a successful
fetch with a ten-second window, the cache is not expired and the cached
state is served unchanged. -/
theorem getContent_ttl_witness :
    (_entriesExpired (E := Nat) ⟨5, 10000⟩ 6000 ⟨some [1, 2], some 1000⟩
        = true ↔
      (⟨some [1, 2], some 1000⟩ : BlogState Nat).lastUpdated = none ∨
        ∃ t, (⟨some [1, 2], some 1000⟩ : BlogState Nat).lastUpdated = some t ∧
          (6000 : Int) - t > (10000 : Int)) ∧
    (_entriesExpired (E := Nat) ⟨5, 10000⟩ 6000 ⟨some [1, 2], some 1000⟩
        = false →
      getContent (T := Unit) ⟨5, 10000⟩ (.ok []) (fun _ => .ok ()) 6000
          ⟨some [1, 2], some 1000⟩ none
        = (serveFromCache ⟨5, 10000⟩ (fun _ => .ok ())
            ⟨some [1, 2], some 1000⟩ none, ⟨some [1, 2], some 1000⟩)) :=
  getContent_ttl ⟨5, 10000⟩ (.ok []) (fun _ => .ok ()) 6000
    ⟨some [1, 2], some 1000⟩ none (fun t ht => by cases ht; decide)

/-- C8: in the blog controller, an upstream feed-fetch failure renders the
500 page, an invalid `page` query parameter renders the 404 page, and a
pagination-rendering failure renders the 500 page; in each case the normal
blog page is not rendered (the outcome is the 404 or 500 page, never
`renderBlogs`). -/
theorem getContent_error_pages {E T : Type} (cfg : BlogConfig)
    (fetch : Except Unit (List E)) (pagin : PaginationOpts → Except Unit T)
    (now : Int) (st : BlogState E) (rq : Option (Option ℚ)) :
    (_entriesExpired cfg now st = true → fetch = .error () →
      (getContent cfg fetch pagin now st rq).1 = .render500) ∧
    (∀ es, st.entries = some es → ∀ pq : Option ℚ,
      (pq = none ∨ ∃ qv, pq = some qv ∧
        ¬(jsRound qv ≤ jsRound ((es.length : ℚ) / (cfg.itemsPerPage : ℚ)) ∧
          0 < jsRound qv)) →
      serveFromCache cfg pagin st (some pq) = .render404) ∧
    ((∀ o, pagin o = .error ()) → ∀ es, st.entries = some es →
      (rq = none → serveFromCache cfg pagin st rq = .render500) ∧
      (serveFromCache cfg pagin st rq = .render404 ∨
        serveFromCache cfg pagin st rq = .render500)) := by
  refine ⟨fun hexp hf => ?_, fun es hes pq hbad => ?_,
    fun hpagin es hes => ⟨fun hrq => ?_, ?_⟩⟩
  · unfold getContent
    rw [hexp, hf]
    rfl
  · rw [serveFromCache_eq cfg pagin st es _ hes]
    rcases hbad with h | ⟨qv, hqv, hcond⟩
    · subst h
      rfl
    · subst hqv
      unfold pageSelection
      dsimp only
      rw [if_neg hcond]
  · subst hrq
    rw [serveFromCache_eq cfg pagin st es _ hes]
    show (match pagin ⟨1, cfg.itemsPerPage, es.length⟩ with
          | .error _ => BlogOutcome.render500
          | .ok tpl => BlogOutcome.renderBlogs
              (if es.length ≠ 0
                then jsSlice es 0 (cfg.itemsPerPage : Int) else es) tpl) = _
    rw [hpagin]
  · rw [serveFromCache_eq cfg pagin st es _ hes]
    rcases hps : pageSelection cfg es.length rq with _ | ⟨page, start, stop⟩
    · exact Or.inl rfl
    · right
      dsimp only
      rw [hpagin]

/-- Witness for C8 at a concrete input: with an empty cache and a failing
feed fetch, the 500 error page is rendered. -/
theorem getContent_error_pages_witness :
    (getContent (E := Nat) (T := Unit) ⟨10, 1000⟩ (.error ())
        (fun _ => .ok ()) 0 ⟨none, none⟩ none).1 = .render500 :=
  (getContent_error_pages ⟨10, 1000⟩ (.error ()) (fun _ => .ok ()) 0
    ⟨none, none⟩ none).1 (by rfl) (by rfl)

theorem jsRound_intCast (n : Int) : jsRound ((n : ℚ)) = n := by
  unfold jsRound
  refine Int.floor_eq_iff.mpr ⟨by linarith, by linarith⟩

theorem numPages_round_down (k r ipp : Nat) (hipp : 0 < ipp)
    (hr : 2 * r < ipp) :
    jsRound (((k * ipp + r : Nat) : ℚ) / (ipp : ℚ)) = k := by
  have hipp' : (0 : ℚ) < (ipp : ℚ) := by exact_mod_cast hipp
  have hne : (ipp : ℚ) ≠ 0 := ne_of_gt hipp'
  have hx : (((k * ipp + r : Nat) : ℚ)) / (ipp : ℚ)
      = (k : ℚ) + (r : ℚ) / (ipp : ℚ) := by
    push_cast
    field_simp
  have hr2 : (r : ℚ) / (ipp : ℚ) < 1 / 2 := by
    rw [div_lt_iff₀ hipp']
    have : (2 * r : ℚ) < (ipp : ℚ) := by exact_mod_cast hr
    linarith
  have hr0 : (0 : ℚ) ≤ (r : ℚ) / (ipp : ℚ) := by positivity
  unfold jsRound
  rw [hx]
  refine Int.floor_eq_iff.mpr ⟨?_, ?_⟩ <;> push_cast <;> linarith

/-- C9: with a present `page` parameter, a blog request is accepted (not
rejected with the 404 page) exactly when the rounded page number `p`
satisfies `0 < p ≤ Math.round(entries.length / itemsPerPage)` (a `NaN`
page is always rejected); consequently, when `entries.length` leaves a
remainder of less than half a page, the last partial page — whose start
index is still below `entries.length`, so its entries exist — is rejected
with a 404. -/
theorem blog_page_validation {E T : Type} (cfg : BlogConfig)
    (pagin : PaginationOpts → Except Unit T) (st : BlogState E)
    (es : List E) (hes : st.entries = some es) :
    (∀ qv : ℚ,
      (serveFromCache cfg pagin st (some (some qv)) ≠ .render404 ↔
        0 < jsRound qv ∧
          jsRound qv ≤ jsRound ((es.length : ℚ) / (cfg.itemsPerPage : ℚ)))) ∧
    serveFromCache cfg pagin st (some none) = .render404 ∧
    (∀ k r : Nat, es.length = k * cfg.itemsPerPage + r → 0 < r →
      2 * r < cfg.itemsPerPage →
      serveFromCache cfg pagin st (some (some ((k + 1 : Nat) : ℚ)))
          = .render404 ∧
      (k : Int) * cfg.itemsPerPage < (es.length : Int)) := by
  refine ⟨fun qv => ?_, ?_, fun k r hlen hr0 hr2 => ?_⟩
  · rw [serveFromCache_eq cfg pagin st es _ hes]
    unfold pageSelection
    dsimp only
    by_cases hcond : jsRound qv
          ≤ jsRound ((es.length : ℚ) / (cfg.itemsPerPage : ℚ))
        ∧ 0 < jsRound qv
    · rw [if_pos hcond]
      dsimp only
      constructor
      · intro _
        exact ⟨hcond.2, hcond.1⟩
      · intro _
        rcases hp : pagin ⟨jsRound qv, cfg.itemsPerPage, es.length⟩
          with _ | tpl <;> simp
    · rw [if_neg hcond]
      constructor
      · intro hne
        exact absurd rfl hne
      · rintro ⟨h1, h2⟩
        exact absurd ⟨h2, h1⟩ hcond
  · rw [serveFromCache_eq cfg pagin st es _ hes]
    rfl
  · have hipp : 0 < cfg.itemsPerPage := by omega
    have hnum : jsRound ((es.length : ℚ) / (cfg.itemsPerPage : ℚ)) = k := by
      rw [hlen]
      exact numPages_round_down k r cfg.itemsPerPage hipp hr2
    have hcast : (((k + 1 : Nat)) : ℚ) = (((k : Int) + 1 : Int) : ℚ) := by
      push_cast
      ring
    have hpage : jsRound (((k + 1 : Nat) : ℚ)) = ((k : Int) + 1) := by
      rw [hcast, jsRound_intCast]
    constructor
    · rw [serveFromCache_eq cfg pagin st es _ hes]
      unfold pageSelection
      dsimp only
      rw [if_neg (by
        rw [hpage, hnum]
        rintro ⟨h1, _⟩
        omega)]
    · rw [hlen]
      push_cast
      have : (0 : ℚ) < 1 := by norm_num
      have hrQ : (0 : Int) < (r : Int) := by exact_mod_cast hr0
      linarith

/-- Witness for C9 at a concrete input: 21 cached entries at 10 per page
round down to 2 pages, so page 3 — which holds the 21st entry — is
rejected with a 404. -/
theorem blog_page_validation_witness :
    serveFromCache (T := Unit) ⟨10, 0⟩ (fun _ => .ok ())
        (⟨some (List.range 21), some 1⟩ : BlogState Nat)
        (some (some ((2 + 1 : Nat) : ℚ))) = .render404 ∧
    ((2 : Nat) : Int) * (⟨10, 0⟩ : BlogConfig).itemsPerPage
      < (((List.range 21).length : Nat) : Int) :=
  (blog_page_validation ⟨10, 0⟩ (fun _ => .ok ())
      ⟨some (List.range 21), some 1⟩ (List.range 21) rfl).2.2 2 1
    (by simp) (by decide) (by decide)
